import Mathlib

/-!
# Verification of the elite-ai-agent task orchestration core

This file is a shallow embedding, in Lean 4, of the task orchestration engine
of the elite-ai-agent repository, together with proofs about it.

The embedded components are:

* the tool registry (packages/core/src/tooling/ToolRegistry.ts):
  argument validation, tool dispatch and per-tool metrics;
* the base agent lifecycle (packages/core/src/agents/Agent.ts);
* the model router (packages/core/src/models/ModelRouter.ts):
  token estimation, model selection and the sliding-window rate limiter;
* the memory manager (packages/core/src/memory/MemoryManager.ts):
  the periodic eviction sweep;
* the orchestrator (packages/core/src/orchestrator/Orchestrator.ts):
  task table, concurrency ceiling, dependency scan and cancellation,
  modelled as a labelled transition system.

Modelling conventions:

* JavaScript Map and plain objects become association lists kept in insertion
  order, since Map iteration order (which processNextTask and the rate limiter
  rely on) is insertion order.
* JavaScript numbers become Int (timestamps, argument values), Nat (counts,
  lengths, durations) or Rat (costs and latency averages, which divide).
* Asynchronous control flow is modelled by cutting each async function at its
  await points: the synchronous prefix and each continuation become one atomic
  transition of the state machine, which matches the single-threaded
  JavaScript event loop.
* Thrown exceptions become Except results; a throw that a caller ignores
  (fire-and-forget execution) leaves the state unchanged.
-/

/-! ## JavaScript value model

Tool arguments are arbitrary JSON-ish JavaScript values. -/

inductive JValue where
  | vstr (s : String)
  | vnum (n : Int)
  | vbool (b : Bool)
  | varr (elems : List JValue)
  | vobj
  | vnull
  | vundef

/-- The value of the JavaScript typeof operator, with the Array.isArray check
applied first, exactly as in ToolRegistry.validateType
(typeof null is the string object in JavaScript). -/
def JValue.typeOfJS : JValue → String
  | .vstr _ => "string"
  | .vnum _ => "number"
  | .vbool _ => "boolean"
  | .varr _ => "array"
  | .vobj => "object"
  | .vnull => "object"
  | .vundef => "undefined"

/-- The guard value !== null && value !== undefined from validateArguments. -/
def JValue.isNullOrUndef : JValue → Bool
  | .vnull => true
  | .vundef => true
  | _ => false

/-- JavaScript strict equality on values, as used by Array.prototype.includes
in the enum validation rule. Primitives compare structurally; arrays and
objects compare by reference, so two separately constructed ones are never
equal (a rule list and an argument value are always separate objects here). -/
def jsStrictEq : JValue → JValue → Bool
  | .vstr a, .vstr b => a == b
  | .vnum a, .vnum b => a == b
  | .vbool a, .vbool b => a == b
  | .vnull, .vnull => true
  | .vundef, .vundef => true
  | _, _ => false

/-! ## Association lists standing in for JavaScript Map -/

/-- Map.prototype.get. -/
def alookup (m : List (String × β)) (k : String) : Option β :=
  (m.find? (fun p => p.1 == k)).map (·.2)

/-- Map.prototype.set: updates an existing key in place (keeping its
position in iteration order) or appends a new one. -/
def aset (m : List (String × β)) (k : String) (v : β) : List (String × β) :=
  if m.any (fun p => p.1 == k) then
    m.map (fun p => if p.1 == k then (k, v) else p)
  else
    m ++ [(k, v)]

/-! ## Tool registry (packages/core/src/tooling/ToolRegistry.ts)

ToolConfig fields not read by executeTool or validateArguments
(description, version, type, category, retryable, maxRetries, env,
dependencies) are omitted; ToolParameter.default is likewise never read
by validation and omitted. -/

inductive RuleKind where
  | rmin
  | rmax
  | rregex
  | renum
  | rcustom
deriving DecidableEq

structure ValidationRule where
  rtype : RuleKind
  value : JValue
  message : String

structure ToolParameter where
  name : String
  type : String
  required : Bool
  validation : List ValidationRule

structure ToolConfig where
  name : String
  timeout : Nat
  parameters : List ToolParameter

structure ToolMetrics where
  calls : Nat
  successes : Nat
  failures : Nat
  averageLatency : Rat
  totalDuration : Nat
  lastUsed : Int
deriving DecidableEq

structure ToolResult where
  success : Bool
  output : Option JValue
  error : Option String
  duration : Nat

/-- ToolRegistry.validateType. The message text follows the source template
literal (the \x27 escapes are ASCII single quotes). -/
def validateType (name : String) (value : JValue) (expectedType : String) : Option String :=
  let actualType := value.typeOfJS
  if actualType != expectedType then
    some ("Parameter \x27" ++ name ++ "\x27 should be of type " ++ expectedType ++
      ", got " ++ actualType)
  else
    none

/-- ToolRegistry.validateRule. The regex case delegates the JavaScript
RegExp test to an external predicate regexTest, since the regular expression
engine is outside the embedded core; min and max compare only when both
sides are numbers (in JavaScript a comparison against a non-number rule
value is false via NaN); the custom kind has no case in the source switch
and yields no error. A non-array enum rule value would throw in JavaScript
and is not modelled (no registered tool declares one). -/
def validateRule (regexTest : JValue → String → Bool) (name : String)
    (value : JValue) (rule : ValidationRule) : Option String :=
  match rule.rtype with
  | .rmin =>
    match value, rule.value with
    | .vnum a, .vnum b => if a < b then some rule.message else none
    | _, _ => none
  | .rmax =>
    match value, rule.value with
    | .vnum a, .vnum b => if b < a then some rule.message else none
    | _, _ => none
  | .rregex =>
    match value with
    | .vstr s => if !(regexTest rule.value s) then some rule.message else none
    | _ => none
  | .renum =>
    match rule.value with
    | .varr l => if !(l.any (jsStrictEq value)) then some rule.message else none
    | _ => none
  | .rcustom => none

structure ValidationOutcome where
  valid : Bool
  errors : List String

/-- The first loop of ToolRegistry.validateArguments: one error per absent
required parameter. -/
def requiredParamErrors (config : ToolConfig) (args : List (String × JValue)) : List String :=
  config.parameters.filterMap (fun param =>
    if param.required && !(args.any (fun a => a.1 == param.name)) then
      some ("Missing required parameter: " ++ param.name)
    else
      none)

/-- The second loop of ToolRegistry.validateArguments: per supplied argument
in insertion order, an unknown-name error (skipping the rest for that
argument), a type error unless the value is null or undefined, and one error
per violated validation rule. -/
def suppliedArgErrors (regexTest : JValue → String → Bool) (config : ToolConfig)
    (args : List (String × JValue)) : List String :=
  args.flatMap (fun arg =>
    match config.parameters.find? (fun p => p.name == arg.1) with
    | none => ["Unknown parameter: " ++ arg.1]
    | some param =>
      let typeErrors :=
        if !arg.2.isNullOrUndef then (validateType arg.1 arg.2 param.type).toList
        else []
      let ruleErrors := param.validation.filterMap (validateRule regexTest arg.1 arg.2)
      typeErrors ++ ruleErrors)

/-- ToolRegistry.validateArguments: the two loops above, in source order;
the call is valid exactly when neither produced an error. -/
def validateArguments (regexTest : JValue → String → Bool) (config : ToolConfig)
    (args : List (String × JValue)) : ValidationOutcome :=
  let errors := requiredParamErrors config args ++ suppliedArgErrors regexTest config args
  { valid := errors.length == 0, errors := errors }

/-- The metrics record a fresh registration starts from (registerTool);
the registration timestamp is a parameter. -/
def zeroToolMetrics (registeredAt : Int) : ToolMetrics :=
  { calls := 0, successes := 0, failures := 0, averageLatency := 0,
    totalDuration := 0, lastUsed := registeredAt }

/-- The metric update executeTool applies in its catch block: both a
validation throw and a throwing tool execution land here. -/
def failureMetricsUpdate (m : ToolMetrics) (duration : Nat) (now : Int) : ToolMetrics :=
  { m with
    calls := m.calls + 1,
    failures := m.failures + 1,
    totalDuration := m.totalDuration + duration,
    averageLatency := ((m.totalDuration + duration : Nat) : Rat) / ((m.calls + 1 : Nat) : Rat),
    lastUsed := now }

/-- The metric update executeTool applies after a non-throwing dispatch. -/
def successMetricsUpdate (m : ToolMetrics) (duration : Nat) (now : Int) : ToolMetrics :=
  { m with
    calls := m.calls + 1,
    successes := m.successes + 1,
    totalDuration := m.totalDuration + duration,
    averageLatency := ((m.totalDuration + duration : Nat) : Rat) / ((m.calls + 1 : Nat) : Rat),
    lastUsed := now }

/-- A registered tool: its config together with the underlying
implementation Tool.execute, abstracted as a function that either returns a
result or throws. -/
structure ToolSim where
  config : ToolConfig
  exec : List (String × JValue) → Except String ToolResult

/-- ToolRegistry.executeTool. An unregistered name throws outside the try
block (Except.error). Otherwise the metrics entry is read (registerTool
always created it; getD covers the non-null assertion), the arguments are
validated, an invalid call throws into the catch block before the tool
implementation is touched, and both catch outcomes and the success path
update the per-tool metrics in place. duration stands for the elapsed
Date.now difference and now for the completion timestamp. -/
def ToolRegistry.executeTool (regexTest : JValue → String → Bool)
    (tools : List (String × ToolSim)) (metricsMap : List (String × ToolMetrics))
    (toolName : String) (args : List (String × JValue)) (duration : Nat) (now : Int) :
    Except String (ToolResult × List (String × ToolMetrics)) :=
  match alookup tools toolName with
  | none => .error ("Tool not found: " ++ toolName)
  | some tool =>
    let metrics := (alookup metricsMap toolName).getD (zeroToolMetrics 0)
    let validation := validateArguments regexTest tool.config args
    if validation.valid then
      match tool.exec args with
      | .ok result =>
        .ok (result, aset metricsMap toolName (successMetricsUpdate metrics duration now))
      | .error e =>
        .ok ({ success := false, output := none, error := some e, duration := duration },
          aset metricsMap toolName (failureMetricsUpdate metrics duration now))
    else
      .ok ({ success := false, output := none,
             error := some ("Invalid arguments: " ++ String.intercalate (", ") validation.errors),
             duration := duration },
        aset metricsMap toolName (failureMetricsUpdate metrics duration now))

/-! ## Base agent lifecycle (packages/core/src/agents/Agent.ts)

BaseAgent carries one piece of lifecycle state, the protected boolean
isInitialized. The three abstract hooks (onInitialize, onExecute,
onShutdown) are abstracted as Except-valued parameters. Each lifecycle
method returns the post-call state, the call outcome, and whether the hook
was invoked. The source method named initialize is embedded under the name
initAgent. -/

structure AgentState where
  isInitialized : Bool
deriving DecidableEq

structure LifecycleOutcome where
  state : AgentState
  outcome : Except String Unit
  hookRan : Bool

/-- BaseAgent.initialize: returns at once when already initialized;
otherwise runs onInitialize and only then sets isInitialized (a throwing
hook leaves the flag false). -/
def BaseAgent.initAgent (onInitializeHook : Except String Unit) (s : AgentState) :
    LifecycleOutcome :=
  if s.isInitialized then
    { state := s, outcome := .ok (), hookRan := false }
  else
    match onInitializeHook with
    | .ok _ => { state := { isInitialized := true }, outcome := .ok (), hookRan := true }
    | .error e => { state := s, outcome := .error e, hookRan := true }

/-- BaseAgent.execute: throws when not initialized, naming the agent;
otherwise delegates to onExecute (a thrown hook error is logged and
rethrown unchanged). -/
def BaseAgent.execute (name : String) (onExecuteHook : Except String α) (s : AgentState) :
    Except String α :=
  if !s.isInitialized then
    .error ("Agent " ++ name ++ " is not initialized")
  else
    onExecuteHook

/-- BaseAgent.shutdown: returns at once when not initialized; otherwise runs
onShutdown and only then clears isInitialized. -/
def BaseAgent.shutdown (onShutdownHook : Except String Unit) (s : AgentState) :
    LifecycleOutcome :=
  if !s.isInitialized then
    { state := s, outcome := .ok (), hookRan := false }
  else
    match onShutdownHook with
    | .ok _ => { state := { isInitialized := false }, outcome := .ok (), hookRan := true }
    | .error e => { state := s, outcome := .error e, hookRan := true }

/-- A freshly constructed BaseAgent (the constructor leaves
isInitialized = false). -/
def agentFresh : AgentState := { isInitialized := false }

/-- Claim C5 as stated: executing after a completed shutdown fails with a
condition distinguishable from the pre-initialization failure. -/
def C5_claim : Prop :=
  ∀ (name : String) (onInit onShut : Except String Unit) (onExec : Except String Unit),
    BaseAgent.execute name onExec
        (BaseAgent.shutdown onShut (BaseAgent.initAgent onInit agentFresh).state).state ≠
      BaseAgent.execute name onExec agentFresh

/-! ## Model router (packages/core/src/models/ModelRouter.ts)

ModelConfig keeps every field the selection, recommendation and streaming
paths read. The running ModelMetrics counters other than cost are written
but never read back by any embedded operation, so generateResponse is
given the current cumulative cost as a parameter and returns, besides its
result, the updated request-times map (the only router state the claims
observe). -/

structure ChatMessage where
  role : String
  content : String

structure ModelRequest where
  messages : List ChatMessage
  temperature : Option Rat
  maxTokens : Option Nat
  stream : Bool

structure ModelConfig where
  name : String
  type : String
  maxTokens : Nat
  supportsStreaming : Bool
  costPerToken : Option Rat
deriving DecidableEq

structure RateLimitConfig where
  requests : Nat
  window : Int

structure ModelRouterConfig where
  defaultModel : String
  fallbackModels : List String
  timeout : Nat
  maxRetries : Nat
  costBudget : Option Rat
  rateLimit : RateLimitConfig

/-- ModelRouter.estimateTokenCount: the messages joined with single spaces,
length divided by four, rounded up. -/
def estimateTokenCount (request : ModelRequest) : Nat :=
  let text := String.intercalate (" ") (request.messages.map (·.content))
  (text.length + 3) / 4

/-- ModelRouter.selectModel. The selection variable is Option String, none
standing for the JavaScript undefined that arises when the default model is
unregistered, no fallback is configured and no model is registered. Stages,
in source order: default model; fallback when the default is unregistered;
first registered model whose token limit covers the estimate when the
default limit is exceeded; first registered model whose cost keeps the
running total within a configured (truthy, hence nonzero) cost budget. -/
def selectModel (cfg : ModelRouterConfig) (models : List (String × ModelConfig))
    (currentCost : Rat) (request : ModelRequest) : Option String :=
  let selected0 : Option String := some cfg.defaultModel
  let defaultModelConfig := alookup models cfg.defaultModel
  let selected1 :=
    match defaultModelConfig with
    | some _ => selected0
    | none =>
      match cfg.fallbackModels.head? with
      | some f => some f
      | none => (models.head?).map (·.1)
  let estimatedTokens := estimateTokenCount request
  let selected2 :=
    match defaultModelConfig with
    | some d =>
      if d.maxTokens < estimatedTokens then
        match models.find? (fun p => estimatedTokens ≤ p.2.maxTokens) with
        | some p => some p.1
        | none => selected1
      else selected1
    | none => selected1
  match cfg.costBudget with
  | none => selected2
  | some budget =>
    if budget = 0 then selected2
    else
      let modelCost := ((selected2.bind (alookup models)).bind (·.costPerToken)).getD 0
      let estimatedCost := (estimatedTokens : Rat) * modelCost
      if budget < currentCost + estimatedCost then
        match models.find? (fun p =>
            currentCost + (estimatedTokens : Rat) * (p.2.costPerToken.getD 0) ≤ budget) with
        | some p => some p.1
        | none => selected2
      else selected2

/-- The cleanup loop at the head of ModelRouter.checkRateLimit: every model
entry keeps only the request times inside the window ending at now. -/
def pruneRequestTimes (cfg : ModelRouterConfig) (requestTimes : List (String × List Int))
    (now : Int) : List (String × List Int) :=
  requestTimes.map (fun p => (p.1, p.2.filter (fun t => now - cfg.rateLimit.window < t)))

/-- ModelRouter.checkRateLimit. First every model entry is pruned to the
window (in place, so the pruned map survives a subsequent throw); then the
entries are scanned for one at or over the configured request count, whose
presence throws; an admitted request is recorded by appending now to the
entry of the configured default model. Returns the error, if any, and the
request-times map as left by the call. -/
def checkRateLimit (cfg : ModelRouterConfig) (requestTimes : List (String × List Int))
    (now : Int) : Option String × List (String × List Int) :=
  let pruned := pruneRequestTimes cfg requestTimes now
  match pruned.find? (fun p => cfg.rateLimit.requests ≤ p.2.length) with
  | some p => (some ("Rate limit exceeded for model " ++ p.1), pruned)
  | none =>
    let modelTimes := (alookup pruned cfg.defaultModel).getD []
    (none, aset pruned cfg.defaultModel (modelTimes ++ [now]))

structure ZaiMessage where
  content : Option String

structure ZaiChoice where
  message : Option ZaiMessage
  finish_reason : Option String

structure ZaiUsage where
  prompt_tokens : Option Nat
  completion_tokens : Option Nat
  total_tokens : Option Nat

structure ZaiResponse where
  choices : List ZaiChoice
  usage : Option ZaiUsage

structure ZaiPrepared where
  messages : List ChatMessage
  temperature : Rat
  max_tokens : Nat
  stream : Bool

/-- ModelRouter.prepareZAIRequest, including the JavaScript truthiness
defaults (a zero temperature or zero maxTokens falls back like undefined). -/
def prepareZAIRequest (request : ModelRequest) (model : ModelConfig) : ZaiPrepared :=
  let t := request.temperature.getD 0
  let mt := request.maxTokens.getD 0
  { messages := request.messages,
    temperature := if t = 0 then 7 / 10 else t,
    max_tokens := min (if mt = 0 then 2048 else mt) model.maxTokens,
    stream := request.stream }

structure TokenUsage where
  promptTokens : Nat
  completionTokens : Nat
  totalTokens : Nat

structure ModelResponse where
  content : String
  usage : TokenUsage
  model : String
  finishReason : String

/-- ModelRouter.transformResponse (an empty finish reason is falsy and
falls back to the string stop, like an absent one). -/
def transformResponse (z : ZaiResponse) (modelName : String) : ModelResponse :=
  let choice := z.choices.head?
  let message := choice.bind (·.message)
  let fr := (choice.bind (·.finish_reason)).getD ("")
  { content := (message.bind (·.content)).getD (""),
    usage :=
      { promptTokens := ((z.usage).bind (·.prompt_tokens)).getD 0,
        completionTokens := ((z.usage).bind (·.completion_tokens)).getD 0,
        totalTokens := ((z.usage).bind (·.total_tokens)).getD 0 },
    model := modelName,
    finishReason := if fr == "" then ("stop") else fr }

/-- ModelRouter.generateResponse. zaiInit models the this.zai null check;
backend abstracts executeWithRetry (the ZAI call with its timeout, retry
and backoff loop), taking the selected model name and the prepared request.
Call order as in the source: rate limit first (a rate-limited call never
reaches the backend), then selection, then lookup, then execution, then
response transformation. Returns the outcome together with the
request-times map as left by the call. -/
def generateResponse (cfg : ModelRouterConfig) (models : List (String × ModelConfig))
    (currentCost : Rat) (requestTimes : List (String × List Int)) (request : ModelRequest)
    (now : Int) (backend : String → ZaiPrepared → Except String ZaiResponse)
    (zaiInit : Bool) : Except String ModelResponse × List (String × List Int) :=
  if !zaiInit then
    (.error ("ModelRouter not initialized"), requestTimes)
  else
    match checkRateLimit cfg requestTimes now with
    | (some e, rt2) => (.error e, rt2)
    | (none, rt2) =>
      match selectModel cfg models currentCost request with
      | none => (.error ("Model not found: " ++ "undefined"), rt2)
      | some modelName =>
        match alookup models modelName with
        | none => (.error ("Model not found: " ++ modelName), rt2)
        | some model =>
          let zaiRequest := prepareZAIRequest request model
          match backend modelName zaiRequest with
          | .error e => (.error e, rt2)
          | .ok zresp => (.ok (transformResponse zresp modelName), rt2)

/-- Claim C6 as stated, attribution half: every admitted generateResponse
call records its timestamp against the model selected for it. -/
def C6_attribution_claim : Prop :=
  ∀ (cfg : ModelRouterConfig) (models : List (String × ModelConfig)) (currentCost : Rat)
    (requestTimes : List (String × List Int)) (request : ModelRequest) (now : Int)
    (backend : String → ZaiPrepared → Except String ZaiResponse)
    (sel : String) (resp : ModelResponse) (rt2 : List (String × List Int)),
    selectModel cfg models currentCost request = some sel →
    generateResponse cfg models currentCost requestTimes request now backend true =
      (.ok resp, rt2) →
    now ∈ (alookup rt2 sel).getD []

/-- Claim C7 as stated: whenever the estimate exceeds the registered default
limit and some registered model suffices, selectModel returns the first
sufficient model in registration order. -/
def C7_claim : Prop :=
  ∀ (cfg : ModelRouterConfig) (models : List (String × ModelConfig)) (currentCost : Rat)
    (request : ModelRequest) (d : ModelConfig),
    alookup models cfg.defaultModel = some d →
    d.maxTokens < estimateTokenCount request →
    (∃ p ∈ models, estimateTokenCount request ≤ p.2.maxTokens) →
    selectModel cfg models currentCost request =
      (models.find? (fun p => estimateTokenCount request ≤ p.2.maxTokens)).map (·.1)

/-! ## Memory manager (packages/core/src/memory/MemoryManager.ts)

Only the fields the eviction sweep reads are kept: updatedAt of a task
memory, lastUpdated of a repo memory, timestamp and ttl of a generic
entry, timestamp of a vector entry. The remaining payload (context, steps,
results, audit log, vectors, metadata) is never read by
cleanupExpiredEntries and is omitted. -/

structure TaskMemory where
  updatedAt : Int
deriving DecidableEq

structure RepoMemory where
  lastUpdated : Int
deriving DecidableEq

structure MemoryEntry where
  timestamp : Int
  ttl : Option Int
deriving DecidableEq

structure VectorStoreEntry where
  timestamp : Int
deriving DecidableEq

structure MemoryConfig where
  maxTaskMemory : Nat
  maxRepoMemory : Nat
  cacheTTL : Int
  enableVectorStore : Bool

structure MemoryState where
  taskMemories : List (String × TaskMemory)
  repoMemories : List (String × RepoMemory)
  memory : List (String × MemoryEntry)
  vectorStore : List (String × VectorStoreEntry)

/-- Stable insertion step for sortByKey. -/
def insertByKey (key : α → Int) (a : α) : List α → List α
  | [] => [a]
  | b :: l => if key a ≤ key b then a :: b :: l else b :: insertByKey key a l

/-- Array.prototype.sort with the numeric comparator the sweep uses
(ascending by key, stable as required of sort since ES2019). -/
def sortByKey (key : α → Int) : List α → List α
  | [] => []
  | a :: l => insertByKey key a (sortByKey key l)

/-- The task-memory section of MemoryManager.cleanupExpiredEntries: once the
count exceeds the ceiling, sort the entries ascending by updatedAt and
delete the first (length - maxTaskMemory) of them from the map. -/
def cleanupTaskMemories (cfg : MemoryConfig) (tms : List (String × TaskMemory)) :
    List (String × TaskMemory) :=
  if cfg.maxTaskMemory < tms.length then
    let entries := sortByKey (fun p => p.2.updatedAt) tms
    let toRemove := entries.take (entries.length - cfg.maxTaskMemory)
    toRemove.foldl (fun acc p => acc.eraseP (fun q => q.1 == p.1)) tms
  else tms

/-- The repo-memory section of the sweep, same shape keyed by lastUpdated. -/
def cleanupRepoMemories (cfg : MemoryConfig) (rms : List (String × RepoMemory)) :
    List (String × RepoMemory) :=
  if cfg.maxRepoMemory < rms.length then
    let entries := sortByKey (fun p => p.2.lastUpdated) rms
    let toRemove := entries.take (entries.length - cfg.maxRepoMemory)
    toRemove.foldl (fun acc p => acc.eraseP (fun q => q.1 == p.1)) rms
  else rms

/-- The generic-cache section of the sweep: delete every entry with a truthy
ttl whose age exceeds it. -/
def cleanupGenericMemory (now : Int) (mem : List (String × MemoryEntry)) :
    List (String × MemoryEntry) :=
  mem.filter (fun p =>
    match p.2.ttl with
    | some ttl => !(ttl != 0 && decide (ttl < now - p.2.timestamp))
    | none => true)

/-- The vector-store section of the sweep: when the store is enabled, delete
every entry older than the cache lifetime. -/
def cleanupVectorStore (cfg : MemoryConfig) (now : Int)
    (vs : List (String × VectorStoreEntry)) : List (String × VectorStoreEntry) :=
  if cfg.enableVectorStore then
    vs.filter (fun p => !(decide (cfg.cacheTTL < now - p.2.timestamp)))
  else vs

/-- MemoryManager.cleanupExpiredEntries: the four independent sections run
in source order over their respective maps. -/
def cleanupExpiredEntries (cfg : MemoryConfig) (s : MemoryState) (now : Int) : MemoryState :=
  { taskMemories := cleanupTaskMemories cfg s.taskMemories,
    repoMemories := cleanupRepoMemories cfg s.repoMemories,
    memory := cleanupGenericMemory now s.memory,
    vectorStore := cleanupVectorStore cfg now s.vectorStore }

/-! ## Orchestrator (packages/core/src/orchestrator/Orchestrator.ts)

A task keeps the fields the orchestrator reads: id, description, type,
status and dependencies (an absent dependency list is the empty list, on
which every-quantification is vacuous exactly as in the source). priority,
timestamps, context and result payloads are carried along unchanged by the
source and omitted here.

The orchestrator state is the task table (Map, insertion order) and the
runningTasks set. The configuration is maxConcurrentTasks; the remaining
options (timeout, retry counts, delays, audit flag) shape executeWithRetry,
whose outcome is abstracted into the success flag of the finish
transition. -/

inductive TaskStatus where
  | pending
  | in_progress
  | completed
  | failed
  | cancelled
deriving DecidableEq

structure OTask where
  id : String
  description : String
  type : String
  status : TaskStatus
  dependencies : List String
deriving DecidableEq

structure OrchConfig where
  maxConcurrentTasks : Nat

structure OrchState where
  tasks : List OTask
  runningTasks : List String

/-- this.tasks.get(taskId) via the Map keyed by task id. -/
def getTask (s : OrchState) (id : String) : Option OTask :=
  s.tasks.find? (fun t => t.id == id)

/-- this.tasks.set(task.id, task): replace in place or append. -/
def setTask (tasks : List OTask) (t : OTask) : List OTask :=
  if tasks.any (fun u => u.id == t.id) then
    tasks.map (fun u => if u.id == t.id then t else u)
  else tasks ++ [t]

/-- this.tasks.set(taskId, copy-with-new-status), used by executeTask,
finish continuations and cancelTask; only the status field changes. -/
def setTaskStatus (tasks : List OTask) (id : String) (st : TaskStatus) : List OTask :=
  tasks.map (fun t => if t.id == id then { t with status := st } else t)

/-- The synchronous prefix of Orchestrator.executeTask, up to its first
await: a missing task throws into the fire-and-forget catch (no state
change), an already running task returns (no state change), otherwise the
task joins runningTasks and is marked in_progress (task:started). -/
def startTask (s : OrchState) (id : String) : OrchState :=
  match getTask s id with
  | none => s
  | some _ =>
    if s.runningTasks.contains id then s
    else
      { tasks := setTaskStatus s.tasks id .in_progress,
        runningTasks := s.runningTasks ++ [id] }

/-- Orchestrator.submitTask: a task without description or type throws
before any state change; otherwise the task is stored (task:submitted) and,
when the running count is below maxConcurrentTasks, execution starts
immediately via the synchronous prefix of executeTask. No dependency check
occurs on this path. -/
def submitTask (cfg : OrchConfig) (s : OrchState) (t : OTask) : OrchState :=
  if t.description == "" || t.type == "" then s
  else
    let s1 : OrchState := { s with tasks := setTask s.tasks t }
    if s1.runningTasks.length < cfg.maxConcurrentTasks then startTask s1 t.id
    else s1

/-- The dependency predicate of Orchestrator.processNextTask: every declared
dependency resolves to a task with status completed. -/
def dependenciesMet (s : OrchState) (t : OTask) : Bool :=
  t.dependencies.all (fun depId =>
    match getTask s depId with
    | some depTask => depTask.status == .completed
    | none => false)

/-- Orchestrator.processNextTask: under the ceiling, scan the task table in
insertion order for the first pending, not-running task whose dependencies
are met, and start it. -/
def processNextTask (cfg : OrchConfig) (s : OrchState) : OrchState :=
  if cfg.maxConcurrentTasks ≤ s.runningTasks.length then s
  else
    match s.tasks.find? (fun t =>
        t.status == .pending && !(s.runningTasks.contains t.id) && dependenciesMet s t) with
    | some t => startTask s t.id
    | none => s

/-- The continuation of Orchestrator.executeTask after executeWithRetry
settles (success abstracts its outcome, including retries and timeout): the
status of the task becomes completed or failed, the finally block releases the
concurrency slot and scans for the next eligible pending task. Both source
branches write a spread copy of the task with only status (and result and
updatedAt, not modelled) changed, which setTaskStatus captures. -/
def finishTask (cfg : OrchConfig) (s : OrchState) (id : String) (success : Bool) : OrchState :=
  let s1 : OrchState :=
    { s with tasks := setTaskStatus s.tasks id (if success then .completed else .failed) }
  let s2 : OrchState := { s1 with runningTasks := s1.runningTasks.erase id }
  processNextTask cfg s2

/-- Orchestrator.cancelTask: unknown task and in_progress task are refused
(false, no change); every other status is overwritten with cancelled
(task:cancelled, true). -/
def cancelTask (s : OrchState) (id : String) : OrchState × Bool :=
  match getTask s id with
  | none => (s, false)
  | some t =>
    if t.status == .in_progress then (s, false)
    else ({ s with tasks := setTaskStatus s.tasks id .cancelled }, true)

/-- The transitions of the orchestrator, one per atomic event-loop segment.
Submitted tasks carry a fresh id and pending status, as produced by the
shared createTask constructor (uuid id, status pending); the finish
continuation exists exactly for ids currently holding a concurrency slot. -/
inductive OStep (cfg : OrchConfig) : OrchState → OrchState → Prop where
  | submit (s : OrchState) (t : OTask) (hfresh : getTask s t.id = none)
      (hpending : t.status = .pending) : OStep cfg s (submitTask cfg s t)
  | finish (s : OrchState) (id : String) (success : Bool)
      (hrun : id ∈ s.runningTasks) : OStep cfg s (finishTask cfg s id success)
  | cancel (s : OrchState) (id : String) : OStep cfg s (cancelTask s id).1

/-- The initial orchestrator state: empty task table, empty running set. -/
def orchInit : OrchState := { tasks := [], runningTasks := [] }

/-- States reachable from a freshly constructed orchestrator. -/
inductive Reachable (cfg : OrchConfig) : OrchState → Prop where
  | init : Reachable cfg orchInit
  | step {s s2 : OrchState} : Reachable cfg s → OStep cfg s s2 → Reachable cfg s2

/-- The number of tasks currently holding in_progress status. -/
def inProgressCount (s : OrchState) : Nat :=
  (s.tasks.filter (fun t => t.status == .in_progress)).length

/-- The status transitions the code actually performs: stay, start a pending
task, finish a started task, or cancel any task that is not in_progress
(including completed and failed ones). -/
def statusTransitionOk (a b : TaskStatus) : Prop :=
  a = b ∨ (a = .pending ∧ b = .in_progress) ∨
    (a = .in_progress ∧ (b = .completed ∨ b = .failed)) ∨
    (a ≠ .in_progress ∧ b = .cancelled)

/-- Claim C2 as stated, as the two prohibitions it spells out: across any
single transition from a reachable state, a task never re-enters pending
after leaving it, and a completed or failed task never changes status
again. -/
def C2_claim : Prop :=
  ∀ (cfg : OrchConfig) (s s2 : OrchState), Reachable cfg s → OStep cfg s s2 →
    ∀ (i : String) (t t2 : OTask), getTask s i = some t → getTask s2 i = some t2 →
      (t2.status = .pending → t.status = .pending) ∧
      ((t.status = .completed ∨ t.status = .failed) → t2.status = t.status)

/-! ## Concrete instances used by witnesses and counterexamples -/

/-- The file-read tool configuration from ToolRegistry.registerBuiltinTools. -/
def fileReadConfig : ToolConfig :=
  { name := "file-read", timeout := 10000,
    parameters :=
      [ { name := "path", type := "string", required := true, validation := [] },
        { name := "encoding", type := "string", required := false, validation := [] } ] }

def demoFileReadTool : ToolSim :=
  { config := fileReadConfig,
    exec := fun _ => .ok { success := true, output := none, error := none, duration := 0 } }

def demoTools : List (String × ToolSim) := [("file-read", demoFileReadTool)]

def demoToolMetrics : List (String × ToolMetrics) := [("file-read", zeroToolMetrics 0)]

/-- A concrete regex oracle for witnesses (no registered builtin declares a
regex rule, so its value is never consulted there). -/
def noRegex : JValue → String → Bool := fun _ _ => false

def demoRouterCfg : ModelRouterConfig :=
  { defaultModel := "tiny-model", fallbackModels := [], timeout := 30000, maxRetries := 3,
    costBudget := none, rateLimit := { requests := 60, window := 60000 } }

def tinyModelCfg : ModelConfig :=
  { name := "tiny-model", type := "oss", maxTokens := 2, supportsStreaming := true,
    costPerToken := none }

def bigModelCfg : ModelConfig :=
  { name := "big-model", type := "oss", maxTokens := 100, supportsStreaming := true,
    costPerToken := none }

def demoModels : List (String × ModelConfig) :=
  [("tiny-model", tinyModelCfg), ("big-model", bigModelCfg)]

def demoRequest : ModelRequest :=
  { messages := [{ role := "user", content := "hello world" }], temperature := none,
    maxTokens := none, stream := false }

def demoBackend : String → ZaiPrepared → Except String ZaiResponse :=
  fun _ _ => .ok { choices := [], usage := none }

/-- demoRouterCfg with the request window shrunk to one request. -/
def limitedRouterCfg : ModelRouterConfig :=
  { defaultModel := "tiny-model", fallbackModels := [], timeout := 30000, maxRetries := 3,
    costBudget := none, rateLimit := { requests := 1, window := 60000 } }

def budgetRouterCfg : ModelRouterConfig :=
  { defaultModel := "tiny-model", fallbackModels := [], timeout := 30000, maxRetries := 3,
    costBudget := some 1, rateLimit := { requests := 60, window := 60000 } }

def tinyPricedModelCfg : ModelConfig :=
  { name := "tiny-model", type := "oss", maxTokens := 2, supportsStreaming := true,
    costPerToken := some 1 }

def bigPricedModelCfg : ModelConfig :=
  { name := "big-model", type := "oss", maxTokens := 100, supportsStreaming := true,
    costPerToken := some 1 }

def cheapModelCfg : ModelConfig :=
  { name := "cheap-model", type := "oss", maxTokens := 200, supportsStreaming := true,
    costPerToken := some 0 }

def budgetModels : List (String × ModelConfig) :=
  [("tiny-model", tinyPricedModelCfg), ("big-model", bigPricedModelCfg),
    ("cheap-model", cheapModelCfg)]

def demoMemoryCfg : MemoryConfig :=
  { maxTaskMemory := 1, maxRepoMemory := 1000, cacheTTL := 3600000, enableVectorStore := false }

def demoMemoryState : MemoryState :=
  { taskMemories := [("task-a", { updatedAt := 5 }), ("task-b", { updatedAt := 3 })],
    repoMemories := [], memory := [], vectorStore := [] }

def demoCfg : OrchConfig := { maxConcurrentTasks := 3 }

def tid0 : String := "t0"

def tid1 : String := "t1"

def demoTask0 : OTask :=
  { id := tid0, description := "add input validation", type := "code-generation",
    status := .pending, dependencies := [] }

def demoTask1 : OTask :=
  { id := tid1, description := "test the validation", type := "testing",
    status := .pending, dependencies := [tid0] }

def demoS1 : OrchState := submitTask demoCfg orchInit demoTask0

def demoS2 : OrchState := submitTask demoCfg demoS1 demoTask1

def demoSDone : OrchState := finishTask demoCfg demoS1 tid0 true

/-! ## Association list lemmas -/

theorem alookup_aset_self (m : List (String × β)) (k : String) (v : β) :
    alookup (aset m k v) k = some v := by
  unfold aset
  by_cases h : m.any (fun p => p.1 == k) = true
  · rw [if_pos h]
    unfold alookup
    rw [List.find?_map]
    have hpred : ((fun p : String × β => p.1 == k) ∘
        fun p : String × β => if p.1 == k then (k, v) else p) =
        fun p : String × β => p.1 == k := by
      funext p
      by_cases hp : p.1 = k
      · simp [hp]
      · simp [hp]
    rw [hpred]
    rw [List.any_eq_true] at h
    obtain ⟨x, hx, hxk⟩ := h
    have hsome : (m.find? (fun p => p.1 == k)).isSome := by
      rw [List.find?_isSome]
      exact ⟨x, hx, hxk⟩
    obtain ⟨q, hq⟩ := Option.isSome_iff_exists.mp hsome
    have hqk : q.1 = k := by
      have := List.find?_some hq
      simpa using this
    simp [hq, hqk]
  · rw [if_neg h]
    unfold alookup
    rw [List.find?_append]
    have hnone : m.find? (fun p => p.1 == k) = none := by
      rw [List.find?_eq_none]
      intro p hp
      rw [List.any_eq_true] at h
      exact fun hc => h ⟨p, hp, hc⟩
    simp [hnone]

theorem alookup_eq_none_of_not_mem_keys {m : List (String × β)} {k : String}
    (h : k ∉ m.map (·.1)) : alookup m k = none := by
  unfold alookup
  have hnone : m.find? (fun p => p.1 == k) = none := by
    rw [List.find?_eq_none]
    intro p hp hc
    exact h (List.mem_map.mpr ⟨p, hp, by simpa using hc⟩)
  rw [hnone]
  rfl

theorem alookup_of_mem_nodup {m : List (String × β)} {q : String × β}
    (hnd : (m.map (·.1)).Nodup) (hq : q ∈ m) : alookup m q.1 = some q.2 := by
  induction m with
  | nil => cases hq
  | cons a l ih =>
    rw [List.mem_cons] at hq
    rcases hq with rfl | hq
    · simp [alookup]
    · have hnd2 := (List.nodup_cons.mp hnd).2
      have hne : a.1 ≠ q.1 := by
        intro he
        exact (List.nodup_cons.mp hnd).1 (List.mem_map.mpr ⟨q, hq, he.symm⟩)
      have := ih hnd2 hq
      simpa [alookup, List.find?_cons, hne] using this

theorem alookup_eraseP_self {m : List (String × β)} {k : String}
    (hnd : (m.map (·.1)).Nodup) :
    alookup (m.eraseP (fun q => q.1 == k)) k = none := by
  induction m with
  | nil => simp [alookup]
  | cons a l ih =>
    have hnd1 := (List.nodup_cons.mp hnd).1
    have hnd2 := (List.nodup_cons.mp hnd).2
    by_cases ha : (a.1 == k) = true
    · simp only [List.eraseP_cons, ha, cond_true]
      apply alookup_eq_none_of_not_mem_keys
      have hak : a.1 = k := by simpa using ha
      rw [← hak]
      exact hnd1
    · have ha2 : (a.1 == k) = false := by simpa using ha
      simp only [List.eraseP_cons, ha2, cond_false]
      have := ih hnd2
      simpa [alookup, List.find?_cons, ha2] using this

theorem alookup_eraseP_ne {m : List (String × β)} {k : String} {q : String × β}
    (hnd : (m.map (·.1)).Nodup) (hq : q ∈ m) (hne : q.1 ≠ k) :
    alookup (m.eraseP (fun p => p.1 == k)) q.1 = some q.2 := by
  induction m with
  | nil => cases hq
  | cons a l ih =>
    have hnd1 := (List.nodup_cons.mp hnd).1
    have hnd2 := (List.nodup_cons.mp hnd).2
    rw [List.mem_cons] at hq
    by_cases ha : (a.1 == k) = true
    · simp only [List.eraseP_cons, ha, cond_true]
      rcases hq with rfl | hq
      · exact absurd (by simpa using ha) hne
      · exact alookup_of_mem_nodup hnd2 hq
    · have ha2 : (a.1 == k) = false := by simpa using ha
      simp only [List.eraseP_cons, ha2, cond_false]
      rcases hq with rfl | hq
      · simp [alookup]
      · have hne2 : a.1 ≠ q.1 := by
          intro he
          exact hnd1 (List.mem_map.mpr ⟨q, hq, he.symm⟩)
        have := ih hnd2 hq
        simpa [alookup, List.find?_cons, hne2] using this

/-! ## Tool registry theorems (claims C4 and C10) -/

theorem validateArguments_invalid_of_mem {regexTest : JValue → String → Bool}
    {config : ToolConfig} {args : List (String × JValue)} {e : String}
    (hmem : e ∈ (validateArguments regexTest config args).errors) :
    (validateArguments regexTest config args).valid = false := by
  show (((validateArguments regexTest config args).errors).length == 0) = false
  have hne : (validateArguments regexTest config args).errors ≠ [] :=
    List.ne_nil_of_mem hmem
  simpa using fun h0 => hne (List.eq_nil_of_length_eq_zero h0)

/-- Claim C4: for a registered tool, a call missing a required parameter
returns a validation failure whose error text is the full joined violation
list and names the missing parameter, updates the failure metrics, and is
independent of the underlying implementation (the tool is never invoked:
swapping the implementation leaves the call unchanged). -/
theorem C4_executeTool_missing_required
    (regexTest : JValue → String → Bool) (tools : List (String × ToolSim))
    (ms : List (String × ToolMetrics)) (toolName : String) (args : List (String × JValue))
    (dur : Nat) (now : Int) (tool : ToolSim) (p : ToolParameter)
    (hreg : alookup tools toolName = some tool)
    (hp : p ∈ tool.config.parameters) (hreq : p.required = true)
    (hmiss : args.any (fun a => a.1 == p.name) = false) :
    ("Missing required parameter: " ++ p.name) ∈
        (validateArguments regexTest tool.config args).errors ∧
    ToolRegistry.executeTool regexTest tools ms toolName args dur now =
      .ok ({ success := false, output := none,
             error := some ("Invalid arguments: " ++
               String.intercalate (", ") (validateArguments regexTest tool.config args).errors),
             duration := dur },
           aset ms toolName
             (failureMetricsUpdate ((alookup ms toolName).getD (zeroToolMetrics 0)) dur now)) ∧
    ∀ exec2, ToolRegistry.executeTool regexTest
        (aset tools toolName { config := tool.config, exec := exec2 }) ms toolName args dur now =
      ToolRegistry.executeTool regexTest tools ms toolName args dur now := by
  have hmem : ("Missing required parameter: " ++ p.name) ∈
      (validateArguments regexTest tool.config args).errors := by
    show _ ∈ requiredParamErrors tool.config args ++ suppliedArgErrors regexTest tool.config args
    apply List.mem_append_left
    rw [requiredParamErrors, List.mem_filterMap]
    exact ⟨p, hp, by rw [hreq, hmiss]; rfl⟩
  have hinvalid := validateArguments_invalid_of_mem hmem
  refine ⟨hmem, ?_, ?_⟩
  · unfold ToolRegistry.executeTool
    rw [hreg]
    simp only [hinvalid, Bool.false_eq_true, if_false]
  · intro exec2
    unfold ToolRegistry.executeTool
    rw [hreg, alookup_aset_self]
    simp only [hinvalid, Bool.false_eq_true, if_false]

/-- Claim C4 witness: the builtin file-read tool called with an empty
argument map: the missing path parameter is named among the violations and
the call does not depend on the tool implementation. -/
theorem C4_witness :
    ("Missing required parameter: " ++ "path") ∈
        (validateArguments noRegex fileReadConfig []).errors ∧
    ∀ exec2, ToolRegistry.executeTool noRegex
        (aset demoTools ("file-read") { config := fileReadConfig, exec := exec2 })
        demoToolMetrics ("file-read") [] 5 99 =
      ToolRegistry.executeTool noRegex demoTools demoToolMetrics ("file-read") [] 5 99 :=
  have h := C4_executeTool_missing_required noRegex demoTools demoToolMetrics ("file-read") []
    5 99 demoFileReadTool { name := "path", type := "string", required := true, validation := [] }
    rfl (List.mem_cons_self _ _) rfl rfl
  ⟨h.1, h.2.2⟩

/-- Claim C10: a call rejected during argument validation still updates the
per-tool metrics through the same catch-block update as a throwing
execution: calls and failures increment, totalDuration accumulates,
averageLatency is the new quotient and lastUsed the call timestamp, while
the tool implementation itself is never invoked. -/
theorem C10_validation_failure_metrics
    (regexTest : JValue → String → Bool) (tools : List (String × ToolSim))
    (ms : List (String × ToolMetrics)) (toolName : String) (args : List (String × JValue))
    (dur : Nat) (now : Int) (tool : ToolSim) (m : ToolMetrics)
    (hreg : alookup tools toolName = some tool)
    (hm : alookup ms toolName = some m)
    (hinvalid : (validateArguments regexTest tool.config args).valid = false) :
    ToolRegistry.executeTool regexTest tools ms toolName args dur now =
      .ok ({ success := false, output := none,
             error := some ("Invalid arguments: " ++
               String.intercalate (", ") (validateArguments regexTest tool.config args).errors),
             duration := dur },
           aset ms toolName (failureMetricsUpdate m dur now)) ∧
    failureMetricsUpdate m dur now =
      { calls := m.calls + 1, successes := m.successes, failures := m.failures + 1,
        averageLatency := ((m.totalDuration + dur : Nat) : Rat) / ((m.calls + 1 : Nat) : Rat),
        totalDuration := m.totalDuration + dur, lastUsed := now } ∧
    ∀ args2 e, (validateArguments regexTest tool.config args2).valid = true →
      tool.exec args2 = .error e →
      ToolRegistry.executeTool regexTest tools ms toolName args2 dur now =
        .ok ({ success := false, output := none, error := some e, duration := dur },
             aset ms toolName (failureMetricsUpdate m dur now)) := by
  refine ⟨?_, rfl, ?_⟩
  · unfold ToolRegistry.executeTool
    rw [hreg, hm]
    simp only [hinvalid, Bool.false_eq_true, if_false, Option.getD_some]
  · intro args2 e hvalid2 hexec
    unfold ToolRegistry.executeTool
    rw [hreg, hm]
    simp only [hvalid2, if_true, Option.getD_some, hexec]

/-- Claim C10 witness: the builtin file-read tool called with an empty
argument map starting from the zero metrics record. -/
theorem C10_witness :
    ToolRegistry.executeTool noRegex demoTools demoToolMetrics ("file-read") [] 5 99 =
      .ok ({ success := false, output := none,
             error := some ("Invalid arguments: " ++
               String.intercalate (", ") (validateArguments noRegex fileReadConfig []).errors),
             duration := 5 },
           aset demoToolMetrics ("file-read") (failureMetricsUpdate (zeroToolMetrics 0) 5 99)) ∧
    failureMetricsUpdate (zeroToolMetrics 0) 5 99 =
      { calls := 0 + 1, successes := 0, failures := 0 + 1,
        averageLatency := ((0 + 5 : Nat) : Rat) / ((0 + 1 : Nat) : Rat),
        totalDuration := 0 + 5, lastUsed := 99 } :=
  have h := C10_validation_failure_metrics noRegex demoTools demoToolMetrics ("file-read") []
    5 99 demoFileReadTool (zeroToolMetrics 0) rfl rfl rfl
  ⟨h.1, h.2.1⟩

/-! ## Agent lifecycle theorems (claims C5 and C9) -/

/-- Claim C5 counterexample: the claimed distinguishability fails. After
initialize and shutdown, execute throws exactly the same agent-not-
initialized error as before initialize, because shutdown merely clears
isInitialized and no separate shut-down flag exists. -/
theorem C5_counterexample : ¬ C5_claim := by
  intro h
  exact h ("Coder Agent") (.ok ()) (.ok ()) (.ok ()) rfl

/-- Claim C5 amended: execute before initialize fails with the
agent-not-initialized condition, and execute after any successfully
completed shutdown fails with that same condition — the two failures are
not distinguishable. -/
theorem C5_amended {α : Type} (name : String) (onExec : Except String α)
    (onShut : Except String Unit) (s : AgentState)
    (hok : (BaseAgent.shutdown onShut s).outcome = .ok ()) :
    BaseAgent.execute name onExec agentFresh =
      .error ("Agent " ++ name ++ " is not initialized") ∧
    BaseAgent.execute name onExec (BaseAgent.shutdown onShut s).state =
      .error ("Agent " ++ name ++ " is not initialized") := by
  constructor
  · rfl
  · unfold BaseAgent.shutdown at hok ⊢
    by_cases hs : s.isInitialized
    · simp only [hs, Bool.not_true, Bool.false_eq_true, if_false] at hok ⊢
      cases onShut with
      | ok u => rfl
      | error e => simp at hok
    · have hs2 : s.isInitialized = false := by simpa using hs
      simp only [hs2, Bool.not_false, if_true]
      unfold BaseAgent.execute
      rw [hs2]
      rfl

/-- Claim C5 amended witness: a concrete agent initialized and shut down. -/
theorem C5_amended_witness :
    BaseAgent.execute ("Coder Agent") (Except.ok (0 : Nat)) agentFresh =
      .error ("Agent " ++ "Coder Agent" ++ " is not initialized") ∧
    BaseAgent.execute ("Coder Agent") (Except.ok (0 : Nat))
        (BaseAgent.shutdown (.ok ()) (BaseAgent.initAgent (.ok ()) agentFresh).state).state =
      .error ("Agent " ++ "Coder Agent" ++ " is not initialized") :=
  C5_amended ("Coder Agent") (Except.ok 0) (.ok ())
    (BaseAgent.initAgent (.ok ()) agentFresh).state rfl

/-- Claim C9: the lifecycle is idempotent at its boundaries — initialize on
an already initialized agent returns without running the onInitialize hook,
and shutdown on a non-initialized agent returns without running the
onShutdown hook. -/
theorem C9_lifecycle_idempotent (onInit onShut : Except String Unit) (s : AgentState) :
    (s.isInitialized = true →
      BaseAgent.initAgent onInit s = { state := s, outcome := .ok (), hookRan := false }) ∧
    (s.isInitialized = false →
      BaseAgent.shutdown onShut s = { state := s, outcome := .ok (), hookRan := false }) := by
  constructor
  · intro h
    unfold BaseAgent.initAgent
    rw [if_pos h]
  · intro h
    unfold BaseAgent.shutdown
    rw [if_pos (by rw [h]; rfl)]

/-- Claim C9 witness: a second initialize on a freshly initialized agent and
a shutdown on a fresh agent both return without running their hooks. -/
theorem C9_witness :
    BaseAgent.initAgent (.error ("second init hook must not run"))
        { isInitialized := true } =
      { state := { isInitialized := true }, outcome := .ok (), hookRan := false } ∧
    BaseAgent.shutdown (.error ("shutdown hook must not run")) agentFresh =
      { state := agentFresh, outcome := .ok (), hookRan := false } :=
  ⟨(C9_lifecycle_idempotent (.error ("second init hook must not run"))
      (.ok ()) { isInitialized := true }).1 rfl,
   (C9_lifecycle_idempotent (.ok ())
      (.error ("shutdown hook must not run")) agentFresh).2 rfl⟩

/-! ## Model router theorems (claims C6 and C7) -/

/-- Claim C6 amended: a generateResponse call finding any model entry at or
over the configured request count inside the window is rejected with a
rate-limit error before any backend execution (the backend function is
irrelevant to the outcome), and an admitted call records its timestamp
against the configured default model — not against the model selected for
it. -/
theorem C6_amended (cfg : ModelRouterConfig) (models : List (String × ModelConfig))
    (currentCost : Rat) (rt : List (String × List Int)) (request : ModelRequest) (now : Int)
    (backend backend2 : String → ZaiPrepared → Except String ZaiResponse) :
    (∀ v, (pruneRequestTimes cfg rt now).find?
        (fun p => cfg.rateLimit.requests ≤ p.2.length) = some v →
      generateResponse cfg models currentCost rt request now backend true =
        (.error ("Rate limit exceeded for model " ++ v.1), pruneRequestTimes cfg rt now) ∧
      generateResponse cfg models currentCost rt request now backend2 true =
        generateResponse cfg models currentCost rt request now backend true) ∧
    ((pruneRequestTimes cfg rt now).find?
        (fun p => cfg.rateLimit.requests ≤ p.2.length) = none →
      (generateResponse cfg models currentCost rt request now backend true).2 =
        aset (pruneRequestTimes cfg rt now) cfg.defaultModel
          ((alookup (pruneRequestTimes cfg rt now) cfg.defaultModel).getD [] ++ [now])) := by
  constructor
  · intro v hv
    have hcrl : checkRateLimit cfg rt now =
        (some ("Rate limit exceeded for model " ++ v.1), pruneRequestTimes cfg rt now) := by
      unfold checkRateLimit
      simp only [hv]
    constructor
    · unfold generateResponse
      simp only [hcrl, Bool.not_true, Bool.false_eq_true, if_false]
    · unfold generateResponse
      simp only [hcrl, Bool.not_true, Bool.false_eq_true, if_false]
  · intro hnone
    have hcrl : checkRateLimit cfg rt now =
        (none, aset (pruneRequestTimes cfg rt now) cfg.defaultModel
          ((alookup (pruneRequestTimes cfg rt now) cfg.defaultModel).getD [] ++ [now])) := by
      unfold checkRateLimit
      simp only [hnone]
    unfold generateResponse
    simp only [hcrl, Bool.not_true, Bool.false_eq_true, if_false]
    cases hsel : selectModel cfg models currentCost request with
    | none => rfl
    | some modelName =>
      cases halo : alookup models modelName with
      | none => simp only [halo]
      | some model =>
        cases hback : backend modelName (prepareZAIRequest request model) with
        | ok z => simp only [halo, hback]
        | error e => simp only [halo, hback]

/-- Claim C6 amended witness: one over-limit call (window of one request,
one recorded time) is rejected with the rate-limit error, and one admitted
call records its time under the default model entry. -/
theorem C6_amended_witness :
    generateResponse limitedRouterCfg demoModels 0 [("tiny-model", [4])] demoRequest 5
        demoBackend true =
      (.error ("Rate limit exceeded for model " ++ "tiny-model"),
        pruneRequestTimes limitedRouterCfg [("tiny-model", [4])] 5) ∧
    (generateResponse demoRouterCfg demoModels 0 [] demoRequest 5 demoBackend true).2 =
      aset (pruneRequestTimes demoRouterCfg [] 5) demoRouterCfg.defaultModel
        ((alookup (pruneRequestTimes demoRouterCfg [] 5) demoRouterCfg.defaultModel).getD []
          ++ [5]) :=
  ⟨((C6_amended limitedRouterCfg demoModels 0 [("tiny-model", [4])] demoRequest 5
      demoBackend demoBackend).1 ("tiny-model", [4]) (by decide)).1,
   (C6_amended demoRouterCfg demoModels 0 [] demoRequest 5 demoBackend demoBackend).2 rfl⟩

/-- Claim C6 counterexample: an admitted request whose selected model is
big-model is recorded against the default tiny-model entry, so the claim
that each admitted request is counted against the model selected for it is
false. -/
theorem C6_counterexample : ¬ C6_attribution_claim := by
  intro h
  have h2 := h demoRouterCfg demoModels 0 [] demoRequest 5 demoBackend ("big-model")
    (transformResponse { choices := [], usage := none } ("big-model"))
    [("tiny-model", [(5 : Int)])] (by decide) rfl
  exact absurd h2 (by decide)

/-- Claim C7 amended: when the estimate exceeds the limit registered for
the default model and some registered model suffices, selectModel returns the
first sufficient model in registration order, provided no (truthy) cost
budget is configured — a configured budget can override this choice
afterwards. -/
theorem C7_amended (cfg : ModelRouterConfig) (models : List (String × ModelConfig))
    (currentCost : Rat) (request : ModelRequest) (d : ModelConfig)
    (hd : alookup models cfg.defaultModel = some d)
    (hover : d.maxTokens < estimateTokenCount request)
    (hex : ∃ p ∈ models, estimateTokenCount request ≤ p.2.maxTokens)
    (hnb : cfg.costBudget.getD 0 = 0) :
    selectModel cfg models currentCost request =
      (models.find? (fun p => estimateTokenCount request ≤ p.2.maxTokens)).map (·.1) := by
  obtain ⟨q, hq⟩ : ∃ q, models.find?
      (fun p => estimateTokenCount request ≤ p.2.maxTokens) = some q := by
    have hs : (models.find? (fun p => estimateTokenCount request ≤ p.2.maxTokens)).isSome := by
      rw [List.find?_isSome]
      obtain ⟨p, hp, hle⟩ := hex
      exact ⟨p, hp, by simpa using hle⟩
    exact Option.isSome_iff_exists.mp hs
  unfold selectModel
  simp only [hd, hq]
  rw [if_pos hover]
  cases hb : cfg.costBudget with
  | none => simp
  | some b =>
    have hb0 : b = 0 := by
      rw [hb] at hnb
      simpa using hnb
    subst hb0
    simp

/-- Claim C7 amended witness: with no cost budget, a request overflowing the
tiny default model selects the first registered model with a sufficient
limit. -/
theorem C7_amended_witness :
    selectModel demoRouterCfg demoModels 0 demoRequest =
      (demoModels.find? (fun p => estimateTokenCount demoRequest ≤ p.2.maxTokens)).map (·.1) :=
  C7_amended demoRouterCfg demoModels 0 demoRequest tinyModelCfg rfl (by decide)
    ⟨("big-model", bigModelCfg), by decide, by decide⟩ rfl

/-- Claim C7 counterexample: with a configured cost budget the final
selection can differ from the first token-sufficient model (cheap-model is
returned although big-model is the first sufficient one), so the claim as
stated — quantifying over every configuration — is false. -/
theorem C7_counterexample : ¬ C7_claim := by
  intro h
  have h2 := h budgetRouterCfg budgetModels 0 demoRequest tinyPricedModelCfg rfl (by decide)
    ⟨("big-model", bigPricedModelCfg), by decide, by decide⟩
  have h3 : selectModel budgetRouterCfg budgetModels 0 demoRequest = some ("cheap-model") := by
    have hest : estimateTokenCount demoRequest = 3 := by decide
    norm_num [selectModel, alookup, budgetRouterCfg, budgetModels, hest, List.find?,
      tinyPricedModelCfg, bigPricedModelCfg, cheapModelCfg]
    intro h4
    rw [show (("tiny-model" == "big-model")) = false from rfl] at h4
    norm_num at h4
  have h5 : (budgetModels.find?
      (fun p => estimateTokenCount demoRequest ≤ p.2.maxTokens)).map (·.1) =
      some ("big-model") := by decide
  rw [h3, h5] at h2
  exact absurd h2 (by simp)

/-! ## Memory manager theorems (claim C8) -/

theorem insertByKey_perm (key : α → Int) (a : α) (l : List α) :
    (insertByKey key a l).Perm (a :: l) := by
  induction l with
  | nil => exact List.Perm.refl _
  | cons b l ih =>
    unfold insertByKey
    by_cases h : key a ≤ key b
    · rw [if_pos h]
    · rw [if_neg h]
      exact ((ih.cons b).trans (List.Perm.swap a b l))

theorem sortByKey_perm (key : α → Int) (l : List α) : (sortByKey key l).Perm l := by
  induction l with
  | nil => exact List.Perm.refl _
  | cons a l ih =>
    exact (insertByKey_perm key a (sortByKey key l)).trans (ih.cons a)

theorem insertByKey_pairwise (key : α → Int) (a : α) (l : List α)
    (h : List.Pairwise (fun x y => key x ≤ key y) l) :
    List.Pairwise (fun x y => key x ≤ key y) (insertByKey key a l) := by
  induction l with
  | nil => simp [insertByKey]
  | cons b l ih =>
    rw [List.pairwise_cons] at h
    unfold insertByKey
    by_cases hab : key a ≤ key b
    · rw [if_pos hab, List.pairwise_cons]
      refine ⟨?_, List.pairwise_cons.mpr h⟩
      intro y hy
      rcases List.mem_cons.mp hy with rfl | hy
      · exact hab
      · exact le_trans hab (h.1 y hy)
    · rw [if_neg hab, List.pairwise_cons]
      refine ⟨?_, ih h.2⟩
      intro y hy
      rcases List.mem_cons.mp ((insertByKey_perm key a l).mem_iff.mp hy) with rfl | hy
      · exact (not_le.mp hab).le
      · exact h.1 y hy

theorem sortByKey_pairwise (key : α → Int) (l : List α) :
    List.Pairwise (fun x y => key x ≤ key y) (sortByKey key l) := by
  induction l with
  | nil => simp [sortByKey]
  | cons a l ih => exact insertByKey_pairwise key a (sortByKey key l) ih

theorem sortByKey_head_min (key : α → Int) (l : List α) (b : α) (rest : List α)
    (h : sortByKey key l = b :: rest) : b ∈ l ∧ ∀ x ∈ l, key b ≤ key x := by
  have hperm := sortByKey_perm key l
  have hb : b ∈ l := hperm.mem_iff.mp (by rw [h]; exact List.mem_cons_self _ _)
  have hsort := sortByKey_pairwise key l
  rw [h, List.pairwise_cons] at hsort
  refine ⟨hb, fun x hx => ?_⟩
  have hx2 : x ∈ b :: rest := by
    rw [← h]
    exact hperm.mem_iff.mpr hx
  rcases List.mem_cons.mp hx2 with rfl | hx3
  · exact le_refl _
  · exact hsort.1 x hx3

/-- Claim C8: with maxTaskMemory + 1 task memories of pairwise distinct
last-updated times, one eviction sweep removes exactly the least recently
updated one: its key is absent afterwards, every other entry is still
present unchanged, and exactly maxTaskMemory entries remain. -/
theorem C8_eviction_least_recently_updated (cfg : MemoryConfig) (s : MemoryState) (now : Int)
    (m : String × TaskMemory)
    (hmem : m ∈ s.taskMemories)
    (hkeys : (s.taskMemories.map (·.1)).Nodup)
    (hlen : s.taskMemories.length = cfg.maxTaskMemory + 1)
    (hmin : ∀ q ∈ s.taskMemories, q ≠ m → m.2.updatedAt < q.2.updatedAt) :
    alookup (cleanupExpiredEntries cfg s now).taskMemories m.1 = none ∧
    (∀ q ∈ s.taskMemories, q ≠ m →
      alookup (cleanupExpiredEntries cfg s now).taskMemories q.1 = some q.2) ∧
    (cleanupExpiredEntries cfg s now).taskMemories.length = cfg.maxTaskMemory := by
  have hgt : cfg.maxTaskMemory < s.taskMemories.length := by omega
  have hlenS : (sortByKey (fun p : String × TaskMemory => p.2.updatedAt)
      s.taskMemories).length = cfg.maxTaskMemory + 1 := by
    rw [(sortByKey_perm _ _).length_eq, hlen]
  obtain ⟨b, rest, hbr⟩ : ∃ b rest, sortByKey
      (fun p : String × TaskMemory => p.2.updatedAt) s.taskMemories = b :: rest := by
    cases hE : sortByKey (fun p : String × TaskMemory => p.2.updatedAt) s.taskMemories with
    | nil =>
      rw [hE] at hlenS
      simp at hlenS
    | cons b rest => exact ⟨b, rest, rfl⟩
  have hbmin := sortByKey_head_min _ s.taskMemories b rest hbr
  have hbm : b = m := by
    by_cases hbm2 : b = m
    · exact hbm2
    · have h1 := hmin b hbmin.1 hbm2
      have h2 := hbmin.2 m hmem
      omega
  subst hbm
  have hrest : rest.length = cfg.maxTaskMemory := by
    rw [hbr] at hlenS
    simpa using hlenS
  have hclean : cleanupTaskMemories cfg s.taskMemories =
      s.taskMemories.eraseP (fun q => q.1 == b.1) := by
    unfold cleanupTaskMemories
    rw [if_pos hgt, hbr]
    show ((b :: rest).take ((b :: rest).length - cfg.maxTaskMemory)).foldl
        (fun acc p => acc.eraseP (fun q => q.1 == p.1)) s.taskMemories =
      s.taskMemories.eraseP (fun q => q.1 == b.1)
    have h1 : (b :: rest).length - cfg.maxTaskMemory = 1 := by
      simp [hrest]
    rw [h1]
    rfl
  have hTM : (cleanupExpiredEntries cfg s now).taskMemories =
      s.taskMemories.eraseP (fun q => q.1 == b.1) := hclean
  refine ⟨?_, ?_, ?_⟩
  · rw [hTM]
    exact alookup_eraseP_self hkeys
  · intro q hq hne
    rw [hTM]
    apply alookup_eraseP_ne hkeys hq
    intro hk
    exact hne (List.inj_on_of_nodup_map hkeys hq hmem hk)
  · rw [hTM, List.length_eraseP_of_mem hmem (by simp), hlen]
    simp

/-! ## Orchestrator theorems (claims C1, C2 and C3) -/

theorem getTask_some_id {s : OrchState} {i : String} {t : OTask}
    (h : getTask s i = some t) : t.id = i := by
  have := List.find?_some h
  simpa using this

theorem getTask_mem {s : OrchState} {i : String} {t : OTask}
    (h : getTask s i = some t) : t ∈ s.tasks :=
  List.mem_of_find?_eq_some h

theorem find?_id_of_mem_nodup {ts : List OTask} (hnd : (ts.map (·.id)).Nodup)
    {t : OTask} (ht : t ∈ ts) : ts.find? (fun u => u.id == t.id) = some t := by
  induction ts with
  | nil => cases ht
  | cons a l ih =>
    rw [List.mem_cons] at ht
    rcases ht with rfl | ht
    · simp [List.find?_cons]
    · have hnd1 := (List.nodup_cons.mp hnd).1
      have hnd2 := (List.nodup_cons.mp hnd).2
      have hne : a.id ≠ t.id := by
        intro he
        exact hnd1 (List.mem_map.mpr ⟨t, ht, he.symm⟩)
      have := ih hnd2 ht
      simpa [List.find?_cons, hne] using this

theorem not_mem_ids_of_getTask_none {s : OrchState} {i : String}
    (h : getTask s i = none) : i ∉ s.tasks.map (·.id) := by
  intro hm
  obtain ⟨t, ht, hid⟩ := List.mem_map.mp hm
  unfold getTask at h
  rw [List.find?_eq_none] at h
  exact h t ht (by simpa using hid)

theorem find?_setTaskStatus (ts : List OTask) (id : String) (st : TaskStatus) (i : String) :
    (setTaskStatus ts id st).find? (fun t => t.id == i) =
      (ts.find? (fun t => t.id == i)).map
        (fun t => if t.id == id then { t with status := st } else t) := by
  unfold setTaskStatus
  rw [List.find?_map]
  have hfun : ((fun t : OTask => t.id == i) ∘
      fun t : OTask => if t.id == id then { t with status := st } else t) =
      fun t : OTask => t.id == i := by
    funext t
    by_cases h : t.id = id
    · simp [h]
    · simp [h]
  rw [hfun]

theorem setTaskStatus_map_id (ts : List OTask) (id : String) (st : TaskStatus) :
    (setTaskStatus ts id st).map (·.id) = ts.map (·.id) := by
  unfold setTaskStatus
  rw [List.map_map]
  apply List.map_congr_left
  intro t ht
  by_cases h : t.id = id
  · simp [h]
  · simp [h]

theorem setTask_fresh {ts : List OTask} {t : OTask}
    (h : ts.find? (fun u => u.id == t.id) = none) : setTask ts t = ts ++ [t] := by
  unfold setTask
  rw [if_neg]
  intro hany
  rw [List.any_eq_true] at hany
  obtain ⟨u, hu, hbeq⟩ := hany
  rw [List.find?_eq_none] at h
  exact h u hu hbeq

theorem startTask_eq_of_none {s : OrchState} {id : String}
    (h : getTask s id = none) : startTask s id = s := by
  unfold startTask
  rw [h]

theorem startTask_eq_of_running {s : OrchState} {id : String} {t : OTask}
    (h : getTask s id = some t) (hc : s.runningTasks.contains id = true) :
    startTask s id = s := by
  unfold startTask
  rw [h]
  simp only [hc]
  rfl

theorem startTask_eq_start {s : OrchState} {id : String} {t : OTask}
    (h : getTask s id = some t) (hc : s.runningTasks.contains id = false) :
    startTask s id =
      { tasks := setTaskStatus s.tasks id .in_progress,
        runningTasks := s.runningTasks ++ [id] } := by
  unfold startTask
  rw [h]
  simp only [hc]
  rfl

theorem submitTask_eq_invalid {cfg : OrchConfig} {s : OrchState} {t : OTask}
    (h : (t.description == "" || t.type == "") = true) : submitTask cfg s t = s := by
  unfold submitTask
  simp [h]

theorem submitTask_eq_start {cfg : OrchConfig} {s : OrchState} {t : OTask}
    (h : (t.description == "" || t.type == "") = false)
    (hlt : s.runningTasks.length < cfg.maxConcurrentTasks) :
    submitTask cfg s t = startTask { s with tasks := setTask s.tasks t } t.id := by
  unfold submitTask
  simp [h, hlt]

theorem submitTask_eq_queue {cfg : OrchConfig} {s : OrchState} {t : OTask}
    (h : (t.description == "" || t.type == "") = false)
    (hge : ¬ s.runningTasks.length < cfg.maxConcurrentTasks) :
    submitTask cfg s t = { s with tasks := setTask s.tasks t } := by
  unfold submitTask
  simp [h, hge]

theorem processNextTask_eq_full {cfg : OrchConfig} {s : OrchState}
    (h : cfg.maxConcurrentTasks ≤ s.runningTasks.length) : processNextTask cfg s = s := by
  unfold processNextTask
  rw [if_pos h]

theorem processNextTask_eq_idle {cfg : OrchConfig} {s : OrchState}
    (h : ¬ cfg.maxConcurrentTasks ≤ s.runningTasks.length)
    (hf : s.tasks.find? (fun t =>
      t.status == .pending && !(s.runningTasks.contains t.id) && dependenciesMet s t) = none) :
    processNextTask cfg s = s := by
  unfold processNextTask
  rw [if_neg h, hf]

theorem processNextTask_eq_found {cfg : OrchConfig} {s : OrchState} {tf : OTask}
    (h : ¬ cfg.maxConcurrentTasks ≤ s.runningTasks.length)
    (hf : s.tasks.find? (fun t =>
      t.status == .pending && !(s.runningTasks.contains t.id) && dependenciesMet s t) = some tf) :
    processNextTask cfg s = startTask s tf.id := by
  unfold processNextTask
  rw [if_neg h, hf]

theorem cancelTask_eq_of_none {s : OrchState} {id : String}
    (h : getTask s id = none) : cancelTask s id = (s, false) := by
  unfold cancelTask
  rw [h]

theorem cancelTask_eq_of_running {s : OrchState} {id : String} {t : OTask}
    (h : getTask s id = some t) (hst : (t.status == TaskStatus.in_progress) = true) :
    cancelTask s id = (s, false) := by
  unfold cancelTask
  rw [h]
  simp [hst]

theorem cancelTask_eq_cancel {s : OrchState} {id : String} {t : OTask}
    (h : getTask s id = some t) (hst : (t.status == TaskStatus.in_progress) = false) :
    cancelTask s id = ({ s with tasks := setTaskStatus s.tasks id .cancelled }, true) := by
  unfold cancelTask
  rw [h]
  simp [hst]

/-- The inductive well-formedness invariant of the orchestrator state: task
ids are unique, the running set has no duplicates and respects the ceiling,
every running id belongs to an in_progress task, and every in_progress task
holds a slot in the running set. -/
structure OrchWF (cfg : OrchConfig) (s : OrchState) : Prop where
  ids_nodup : (s.tasks.map (·.id)).Nodup
  run_nodup : s.runningTasks.Nodup
  run_le : s.runningTasks.length ≤ cfg.maxConcurrentTasks
  run_task : ∀ i ∈ s.runningTasks, ∃ t, t ∈ s.tasks ∧ t.id = i ∧ t.status = .in_progress
  prog_run : ∀ t ∈ s.tasks, t.status = .in_progress → t.id ∈ s.runningTasks

theorem startTask_WF {cfg : OrchConfig} {s : OrchState} (h : OrchWF cfg s) (id : String)
    (hlt : s.runningTasks.length < cfg.maxConcurrentTasks) :
    OrchWF cfg (startTask s id) := by
  cases hft : getTask s id with
  | none =>
    rw [startTask_eq_of_none hft]
    exact h
  | some t =>
    by_cases hc : s.runningTasks.contains id = true
    · rw [startTask_eq_of_running hft hc]
      exact h
    · have hc2 : s.runningTasks.contains id = false := by
        simpa using hc
      have hidnm : id ∉ s.runningTasks := by
        simpa using hc2
      rw [startTask_eq_start hft hc2]
      constructor
      · show ((setTaskStatus s.tasks id .in_progress).map (·.id)).Nodup
        rw [setTaskStatus_map_id]
        exact h.ids_nodup
      · show (s.runningTasks ++ [id]).Nodup
        rw [List.nodup_append]
        refine ⟨h.run_nodup, List.nodup_singleton id, ?_⟩
        intro a ha hb
        have hb2 : a = id := by simpa using hb
        exact hidnm (hb2 ▸ ha)
      · show (s.runningTasks ++ [id]).length ≤ cfg.maxConcurrentTasks
        rw [List.length_append]
        simpa using hlt
      · intro i hi
        rcases List.mem_append.mp hi with hi | hi
        · obtain ⟨u, hum, huid, hust⟩ := h.run_task i hi
          have hne : u.id ≠ id := by
            rw [huid]
            intro he
            exact hidnm (he ▸ hi)
          exact ⟨u, List.mem_map.mpr ⟨u, hum, by simp [hne]⟩, huid, hust⟩
        · have hi2 : i = id := by simpa using hi
          subst hi2
          refine ⟨{ t with status := .in_progress }, ?_, ?_, rfl⟩
          · exact List.mem_map.mpr ⟨t, getTask_mem hft, by simp [getTask_some_id hft]⟩
          · simp [getTask_some_id hft]
      · intro u hu hust
        obtain ⟨t0, ht0, hupd⟩ := List.mem_map.mp hu
        by_cases h0 : t0.id = id
        · have hid2 : u.id = id := by
            rw [← hupd]
            simp [h0]
          rw [hid2]
          exact List.mem_append_right _ (by simp)
        · have he : u = t0 := by
            rw [← hupd]
            simp [h0]
          subst he
          exact List.mem_append_left _ (h.prog_run u ht0 hust)

theorem processNextTask_WF {cfg : OrchConfig} {s : OrchState} (h : OrchWF cfg s) :
    OrchWF cfg (processNextTask cfg s) := by
  by_cases hfull : cfg.maxConcurrentTasks ≤ s.runningTasks.length
  · rw [processNextTask_eq_full hfull]
    exact h
  · cases hf : s.tasks.find? (fun t =>
        t.status == .pending && !(s.runningTasks.contains t.id) && dependenciesMet s t) with
    | none =>
      rw [processNextTask_eq_idle hfull hf]
      exact h
    | some tf =>
      rw [processNextTask_eq_found hfull hf]
      exact startTask_WF h tf.id (by omega)

theorem submitTask_WF {cfg : OrchConfig} {s : OrchState} (h : OrchWF cfg s) {t : OTask}
    (hfresh : getTask s t.id = none) (hpending : t.status = .pending) :
    OrchWF cfg (submitTask cfg s t) := by
  by_cases hv : (t.description == "" || t.type == "") = true
  · rw [submitTask_eq_invalid hv]
    exact h
  · have hv2 : (t.description == "" || t.type == "") = false := by simpa using hv
    have happend : setTask s.tasks t = s.tasks ++ [t] := setTask_fresh hfresh
    have h1 : OrchWF cfg { s with tasks := setTask s.tasks t } := by
      constructor
      · show ((setTask s.tasks t).map (·.id)).Nodup
        rw [happend, List.map_append, List.nodup_append]
        refine ⟨h.ids_nodup, by simp, ?_⟩
        intro a ha hb
        have hb2 : a = t.id := by simpa using hb
        exact not_mem_ids_of_getTask_none hfresh (hb2 ▸ ha)
      · exact h.run_nodup
      · exact h.run_le
      · intro i hi
        obtain ⟨u, hum, huid, hust⟩ := h.run_task i hi
        exact ⟨u, by rw [happend] at *; exact List.mem_append_left _ hum, huid, hust⟩
      · intro u hu hust
        rw [happend] at hu
        rcases List.mem_append.mp hu with hu | hu
        · exact h.prog_run u hu hust
        · have he : u = t := by simpa using hu
          subst he
          rw [hpending] at hust
          cases hust
    by_cases hlt : s.runningTasks.length < cfg.maxConcurrentTasks
    · rw [submitTask_eq_start hv2 hlt]
      exact startTask_WF h1 t.id hlt
    · rw [submitTask_eq_queue hv2 hlt]
      exact h1

theorem finishTask_WF {cfg : OrchConfig} {s : OrchState} (h : OrchWF cfg s)
    {id : String} (success : Bool) (hrun : id ∈ s.runningTasks) :
    OrchWF cfg (finishTask cfg s id success) := by
  have h2 : OrchWF cfg
      { tasks := setTaskStatus s.tasks id (if success then .completed else .failed),
        runningTasks := s.runningTasks.erase id } := by
    constructor
    · show ((setTaskStatus s.tasks id _).map (·.id)).Nodup
      rw [setTaskStatus_map_id]
      exact h.ids_nodup
    · exact h.run_nodup.erase _
    · exact le_trans (List.length_erase_le _ _) h.run_le
    · intro i hi
      have hi2 := (List.Nodup.mem_erase_iff h.run_nodup).mp hi
      obtain ⟨u, hum, huid, hust⟩ := h.run_task i hi2.2
      have hne : u.id ≠ id := by
        rw [huid]
        exact hi2.1
      exact ⟨u, List.mem_map.mpr ⟨u, hum, by simp [hne]⟩, huid, hust⟩
    · intro u hu hust
      obtain ⟨t0, ht0, hupd⟩ := List.mem_map.mp hu
      by_cases h0 : t0.id = id
      · exfalso
        have hstu : u.status = (if success then TaskStatus.completed else .failed) := by
          rw [← hupd]
          simp [h0]
        rw [hust] at hstu
        cases success <;> simp at hstu
      · have he : u = t0 := by
          rw [← hupd]
          simp [h0]
        subst he
        rw [List.Nodup.mem_erase_iff h.run_nodup]
        exact ⟨h0, h.prog_run u ht0 hust⟩
  exact processNextTask_WF h2

theorem cancelTask_WF {cfg : OrchConfig} {s : OrchState} (h : OrchWF cfg s) (id : String) :
    OrchWF cfg (cancelTask s id).1 := by
  cases hft : getTask s id with
  | none =>
    rw [cancelTask_eq_of_none hft]
    exact h
  | some t =>
    by_cases hst : (t.status == TaskStatus.in_progress) = true
    · rw [cancelTask_eq_of_running hft hst]
      exact h
    · have hst2 : (t.status == TaskStatus.in_progress) = false := by simpa using hst
      rw [cancelTask_eq_cancel hft hst2]
      constructor
      · show ((setTaskStatus s.tasks id .cancelled).map (·.id)).Nodup
        rw [setTaskStatus_map_id]
        exact h.ids_nodup
      · exact h.run_nodup
      · exact h.run_le
      · intro i hi
        obtain ⟨u, hum, huid, hust⟩ := h.run_task i hi
        have hne : u.id ≠ id := by
          intro he
          have ht2 : u = t :=
            List.inj_on_of_nodup_map h.ids_nodup hum (getTask_mem hft)
              (by rw [he, getTask_some_id hft])
          rw [ht2] at hust
          rw [hust] at hst2
          simp at hst2
        exact ⟨u, List.mem_map.mpr ⟨u, hum, by simp [hne]⟩, huid, hust⟩
      · intro u hu hust
        obtain ⟨t0, ht0, hupd⟩ := List.mem_map.mp hu
        by_cases h0 : t0.id = id
        · exfalso
          have hstu : u.status = TaskStatus.cancelled := by
            rw [← hupd]
            simp [h0]
          rw [hust] at hstu
          cases hstu
        · have he : u = t0 := by
            rw [← hupd]
            simp [h0]
          subst he
          exact h.prog_run u ht0 hust

theorem Reachable_WF {cfg : OrchConfig} {s : OrchState} (h : Reachable cfg s) :
    OrchWF cfg s := by
  induction h with
  | init =>
    constructor
    · simp [orchInit]
    · simp [orchInit]
    · simp [orchInit]
    · intro i hi
      simp [orchInit] at hi
    · intro t ht
      simp [orchInit] at ht
  | step hr hstep ih =>
    cases hstep with
    | submit t hfresh hpending => exact submitTask_WF ih hfresh hpending
    | finish i success hrun => exact finishTask_WF ih success hrun
    | cancel i => exact cancelTask_WF ih i

theorem getTask_after_start_eq {s1 : OrchState} {j i : String} {tj t : OTask}
    (hftj : getTask s1 j = some tj) (hnc : s1.runningTasks.contains j = false)
    (ht : getTask s1 i = some t) :
    getTask (startTask s1 j) i =
      some (if t.id == j then { t with status := .in_progress } else t) := by
  rw [startTask_eq_start hftj hnc]
  show (setTaskStatus s1.tasks j .in_progress).find? (fun u => u.id == i) = _
  rw [find?_setTaskStatus]
  rw [show s1.tasks.find? (fun u => u.id == i) = some t from ht]
  rfl

theorem getTask_processNextTask {cfg : OrchConfig} {s : OrchState}
    (hnd : (s.tasks.map (·.id)).Nodup) {i : String} {u : OTask}
    (hu : getTask s i = some u) :
    getTask (processNextTask cfg s) i = some u ∨
      (u.status = .pending ∧
        getTask (processNextTask cfg s) i = some { u with status := .in_progress }) := by
  by_cases hfull : cfg.maxConcurrentTasks ≤ s.runningTasks.length
  · rw [processNextTask_eq_full hfull]
    exact Or.inl hu
  · cases hf : s.tasks.find? (fun t =>
        t.status == .pending && !(s.runningTasks.contains t.id) && dependenciesMet s t) with
    | none =>
      rw [processNextTask_eq_idle hfull hf]
      exact Or.inl hu
    | some tf =>
      rw [processNextTask_eq_found hfull hf]
      have hpred := List.find?_some hf
      rw [Bool.and_eq_true, Bool.and_eq_true] at hpred
      have htf_nc : s.runningTasks.contains tf.id = false := by
        simpa using hpred.1.2
      have htf_pending : tf.status = TaskStatus.pending := by
        simpa using hpred.1.1
      have htf_mem := List.mem_of_find?_eq_some hf
      have hftf : getTask s tf.id = some tf := find?_id_of_mem_nodup hnd htf_mem
      have h3 := getTask_after_start_eq hftf htf_nc hu
      by_cases h0 : u.id = tf.id
      · right
        have huq : u = tf :=
          List.inj_on_of_nodup_map hnd (getTask_mem hu) htf_mem h0
        refine ⟨by rw [huq]; exact htf_pending, ?_⟩
        rw [h3]
        simp [h0]
      · left
        rw [h3]
        simp [h0]

theorem OStep_statusTransition {cfg : OrchConfig} {s s2 : OrchState} (hwf : OrchWF cfg s)
    (hstep : OStep cfg s s2) {i : String} {t t2 : OTask}
    (ht : getTask s i = some t) (ht2 : getTask s2 i = some t2) :
    statusTransitionOk t.status t2.status := by
  cases hstep with
  | submit t0 hfresh hpending =>
    by_cases hv : (t0.description == "" || t0.type == "") = true
    · rw [submitTask_eq_invalid hv] at ht2
      have he : t = t2 := Option.some.inj (ht.symm.trans ht2)
      rw [← he]
      exact Or.inl rfl
    · have hv2 : (t0.description == "" || t0.type == "") = false := by simpa using hv
      have happend : setTask s.tasks t0 = s.tasks ++ [t0] := setTask_fresh hfresh
      have ht1 : getTask { s with tasks := setTask s.tasks t0 } i = some t := by
        show (setTask s.tasks t0).find? (fun u => u.id == i) = some t
        rw [happend, List.find?_append]
        rw [show s.tasks.find? (fun u => u.id == i) = some t from ht]
        rfl
      have htid : t.id = i := getTask_some_id ht
      have hine : t.id ≠ t0.id := by
        rw [htid]
        intro he
        rw [he, hfresh] at ht
        cases ht
      by_cases hlt : s.runningTasks.length < cfg.maxConcurrentTasks
      · rw [submitTask_eq_start hv2 hlt] at ht2
        have hft0 : getTask { s with tasks := setTask s.tasks t0 } t0.id = some t0 := by
          show (setTask s.tasks t0).find? (fun u => u.id == t0.id) = some t0
          rw [happend, List.find?_append]
          rw [show s.tasks.find? (fun u => u.id == t0.id) = none from hfresh]
          simp [List.find?]
        have hnc : s.runningTasks.contains t0.id = false := by
          by_contra hc
          have hmem : t0.id ∈ s.runningTasks := by simpa using hc
          obtain ⟨u, hum, huid, _⟩ := hwf.run_task t0.id hmem
          have hfind : getTask s t0.id = some u := by
            have h5 := find?_id_of_mem_nodup hwf.ids_nodup hum
            rw [huid] at h5
            exact h5
          rw [hfresh] at hfind
          cases hfind
        have h3 := getTask_after_start_eq hft0 hnc ht1
        have he : t2 = (if t.id == t0.id then { t with status := .in_progress } else t) :=
          Option.some.inj (ht2.symm.trans h3)
        rw [he]
        rw [if_neg (by simpa using hine)]
        exact Or.inl rfl
      · rw [submitTask_eq_queue hv2 hlt] at ht2
        have he : t = t2 := Option.some.inj (ht1.symm.trans ht2)
        rw [← he]
        exact Or.inl rfl
  | finish j success hrun =>
    have hmid : getTask
        { tasks := setTaskStatus s.tasks j (if success then .completed else .failed),
          runningTasks := s.runningTasks.erase j } i =
        some (if t.id == j then
          { t with status := (if success then .completed else .failed) } else t) := by
      show (setTaskStatus s.tasks j _).find? (fun u => u.id == i) = _
      rw [find?_setTaskStatus]
      rw [show s.tasks.find? (fun u => u.id == i) = some t from ht]
      rfl
    have hndmid : ((setTaskStatus s.tasks j
        (if success then TaskStatus.completed else TaskStatus.failed)).map (·.id)).Nodup := by
      rw [setTaskStatus_map_id]
      exact hwf.ids_nodup
    have ht2m : getTask (processNextTask cfg
        { tasks := setTaskStatus s.tasks j (if success then .completed else .failed),
          runningTasks := s.runningTasks.erase j }) i = some t2 := ht2
    rcases getTask_processNextTask hndmid hmid with heq | ⟨hpend, heq⟩
    · have he : t2 = (if t.id == j then
          { t with status := (if success then TaskStatus.completed else .failed) } else t) :=
        Option.some.inj (ht2m.symm.trans heq)
      by_cases h0 : t.id = j
      · have htin : t.status = .in_progress := by
          obtain ⟨w, hwm, hwid, hwst⟩ := hwf.run_task j hrun
          have hwt : w = t :=
            List.inj_on_of_nodup_map hwf.ids_nodup hwm (getTask_mem ht) (by rw [hwid, h0])
          rw [← hwt]
          exact hwst
        rw [he, if_pos (by simpa using h0)]
        refine Or.inr (Or.inr (Or.inl ⟨htin, ?_⟩))
        cases success
        · exact Or.inr rfl
        · exact Or.inl rfl
      · rw [he, if_neg (by simpa using h0)]
        exact Or.inl rfl
    · by_cases h0 : t.id = j
      · exfalso
        have hbeq : (t.id == j) = true := by simpa using h0
        rw [hbeq] at hpend
        simp only [if_true] at hpend
        cases success <;> simp at hpend
      · have hbeq : (t.id == j) = false := by simpa using h0
        rw [hbeq] at hpend heq
        simp only [Bool.false_eq_true, if_false] at hpend heq
        have he : t2 = { t with status := TaskStatus.in_progress } :=
          Option.some.inj (ht2m.symm.trans heq)
        rw [he]
        exact Or.inr (Or.inl ⟨hpend, rfl⟩)
  | cancel j =>
    cases hft : getTask s j with
    | none =>
      rw [cancelTask_eq_of_none hft] at ht2
      have he : t = t2 := Option.some.inj (ht.symm.trans ht2)
      rw [← he]
      exact Or.inl rfl
    | some t0 =>
      by_cases hst : (t0.status == TaskStatus.in_progress) = true
      · rw [cancelTask_eq_of_running hft hst] at ht2
        have he : t = t2 := Option.some.inj (ht.symm.trans ht2)
        rw [← he]
        exact Or.inl rfl
      · have hst2 : (t0.status == TaskStatus.in_progress) = false := by simpa using hst
        rw [cancelTask_eq_cancel hft hst2] at ht2
        have hval : getTask { s with tasks := setTaskStatus s.tasks j .cancelled } i =
            some (if t.id == j then { t with status := .cancelled } else t) := by
          show (setTaskStatus s.tasks j .cancelled).find? (fun u => u.id == i) = _
          rw [find?_setTaskStatus]
          rw [show s.tasks.find? (fun u => u.id == i) = some t from ht]
          rfl
        have he : t2 = (if t.id == j then { t with status := .cancelled } else t) :=
          Option.some.inj (ht2.symm.trans hval)
        by_cases h0 : t.id = j
        · have h4 : getTask s j = some t := by
            rw [← h0]
            rw [getTask_some_id ht] at h0
            rw [h0] at ht
            rw [← h0] at ht
            exact (getTask_some_id ht ▸ ht)
          have htt0 : t = t0 := Option.some.inj (h4.symm.trans hft)
          have hne : t.status ≠ TaskStatus.in_progress := by
            rw [htt0]
            simpa using hst2
          rw [he, if_pos (by simpa using h0)]
          exact Or.inr (Or.inr (Or.inr ⟨hne, rfl⟩))
        · rw [he, if_neg (by simpa using h0)]
          exact Or.inl rfl

/-- Claim C1: the guarantee fails on the immediate-execution path.
submitTask starts a freshly submitted task whenever a concurrency slot is
free without consulting its dependency list: in the reachable state below,
task t1 declares a dependency on t0, t0 is still in_progress (not
completed, so dependenciesMet is false), and yet t1 is already in_progress
right after its submission. Only the processNextTask scan checks
dependencies. -/
theorem C1_submitTask_starts_without_dependency_check :
    Reachable demoCfg demoS2 ∧
    (getTask demoS2 tid1).map (·.status) = some TaskStatus.in_progress ∧
    (getTask demoS2 tid0).map (·.status) = some TaskStatus.in_progress ∧
    demoTask1.dependencies = [tid0] ∧
    dependenciesMet demoS1 demoTask1 = false := by
  refine ⟨?_, by decide, by decide, rfl, by decide⟩
  exact Reachable.step (Reachable.step Reachable.init (OStep.submit orchInit demoTask0 rfl rfl))
    (OStep.submit demoS1 demoTask1 (by decide) rfl)

/-- Claim C2 counterexample: from a reachable state holding a completed
task, cancelTask moves that task to cancelled, so a completed task does
have its status changed again. -/
theorem C2_counterexample : ¬ C2_claim := by
  intro h
  have hr : Reachable demoCfg demoSDone :=
    Reachable.step (Reachable.step Reachable.init (OStep.submit orchInit demoTask0 rfl rfl))
      (OStep.finish demoS1 tid0 true (by decide))
  have h2 := h demoCfg demoSDone (cancelTask demoSDone tid0).1 hr (OStep.cancel demoSDone tid0)
    tid0 { demoTask0 with status := TaskStatus.completed }
    { demoTask0 with status := TaskStatus.cancelled } (by decide) (by decide)
  have h3 := h2.2 (Or.inl rfl)
  exact absurd h3 (by decide)

/-- Claim C2 amended: across every transition from a reachable state, the
status change of a task is one of: unchanged, pending to in_progress (a start),
in_progress to completed or failed (a finish), or any non-in_progress
status — including completed and failed — to cancelled via cancelTask;
in particular no task ever re-enters pending. -/
theorem C2_amended_status_transitions {cfg : OrchConfig} {s s2 : OrchState}
    (hr : Reachable cfg s) (hstep : OStep cfg s s2) {i : String} {t t2 : OTask}
    (ht : getTask s i = some t) (ht2 : getTask s2 i = some t2) :
    statusTransitionOk t.status t2.status :=
  OStep_statusTransition (Reachable_WF hr) hstep ht ht2

/-- Claim C2 amended witness: the finish transition of the demo task, from
in_progress to completed. -/
theorem C2_amended_witness : statusTransitionOk TaskStatus.in_progress TaskStatus.completed := by
  have hr : Reachable demoCfg demoS1 :=
    Reachable.step Reachable.init (OStep.submit orchInit demoTask0 rfl rfl)
  have hstep : OStep demoCfg demoS1 demoSDone :=
    OStep.finish demoS1 tid0 true (by decide)
  have ht : getTask demoS1 tid0 = some { demoTask0 with status := TaskStatus.in_progress } := by
    decide
  have ht2 : getTask demoSDone tid0 =
      some { demoTask0 with status := TaskStatus.completed } := by
    decide
  exact C2_amended_status_transitions hr hstep ht ht2

/-- Claim C3: at every reachable orchestrator state the number of tasks in
in_progress status is bounded by the configured maxConcurrentTasks, for
every configuration and every interleaving of submissions, finishes and
cancellations. -/
theorem C3_concurrency_ceiling (cfg : OrchConfig) (s : OrchState) (h : Reachable cfg s) :
    inProgressCount s ≤ cfg.maxConcurrentTasks := by
  have hwf := Reachable_WF h
  have hsub : ((s.tasks.filter (fun t => t.status == TaskStatus.in_progress)).map
      (·.id)).Subperm s.runningTasks := by
    apply List.subperm_of_subset
    · exact List.Nodup.sublist (List.Sublist.map _ (List.filter_sublist _)) hwf.ids_nodup
    · intro x hx
      obtain ⟨t, ht, rfl⟩ := List.mem_map.mp hx
      exact hwf.prog_run t (List.mem_of_mem_filter ht) (by simpa using List.of_mem_filter ht)
  calc inProgressCount s
      = ((s.tasks.filter (fun t => t.status == TaskStatus.in_progress)).map (·.id)).length := by
        rw [List.length_map]; rfl
    _ ≤ s.runningTasks.length := hsub.length_le
    _ ≤ cfg.maxConcurrentTasks := hwf.run_le

/-- Claim C3 witness: the demo state with one started task under the
default ceiling of three. -/
theorem C3_witness : inProgressCount demoS1 ≤ demoCfg.maxConcurrentTasks :=
  C3_concurrency_ceiling demoCfg demoS1
    (Reachable.step Reachable.init (OStep.submit orchInit demoTask0 rfl rfl))

/-- Claim C8 witness: with a ceiling of one, two task memories updated at
times 5 and 3 leave exactly the older one evicted. -/
theorem C8_witness :
    alookup (cleanupExpiredEntries demoMemoryCfg demoMemoryState 100).taskMemories
        ("task-b") = none ∧
    alookup (cleanupExpiredEntries demoMemoryCfg demoMemoryState 100).taskMemories
        ("task-a") = some { updatedAt := 5 } ∧
    (cleanupExpiredEntries demoMemoryCfg demoMemoryState 100).taskMemories.length = 1 :=
  have h := C8_eviction_least_recently_updated demoMemoryCfg demoMemoryState 100
    ("task-b", { updatedAt := 3 }) (by decide) (by decide) rfl (by decide)
  ⟨h.1, h.2.1 ("task-a", { updatedAt := 5 }) (by decide) (by decide), h.2.2⟩
